import Mathlib

/-!
# aerospace-swipe: the AeroSpace IPC client (`src/aerospace.c`)

A shallow embedding of the socket client: the default socket path
resolver `get_default_socket_path`, the constructor `aerospace_new`, and
`execute_aerospace_command` with its buffered response-reassembly loop.

Modelling conventions.

* The yyjson library and the operating system are not part of the
  repository. The two yyjson entry points whose result depends on bytes
  (`yyjson_read_opts`, `yyjson_mut_write`) are parameters (`Yyjson`); the
  accessors (`yyjson_obj_get`, `yyjson_is_int`, `yyjson_get_int`, ...)
  are modelled on a JSON value tree following the library's documented
  behaviour. The socket is a record `Sock` holding an oracle for the
  results of `read` and logs of the calls made.
* `read_buf` is the physical array of the struct; `read_buf_len` is the
  `size_t` logical length. The logical contents are
  `read_buf.take read_buf_len`.
* Strings are C strings as seen through `yyjson_get_str` and `strdup`
  (the NUL-terminated view); allocation failure of `malloc`/`strdup` is
  not modelled.
-/

namespace Aerospace

/-! ## Data model -/

abbrev Byte := UInt8

/-- The macro `READ_BUFFER_SIZE`. -/
def READ_BUFFER_SIZE : Nat := 8192

/-- The range of `size_t` (64-bit). -/
def SIZE_MOD : Nat := 2 ^ 64

/-- The subtraction `a - b` on `size_t`: it wraps around on underflow. -/
def size_sub (a b : Nat) : Nat := (a + SIZE_MOD - b % SIZE_MOD) % SIZE_MOD

/-- A yyjson value. `uint` and `sint` are the two integer subtypes of a
number, `real` carries the bits of a double. -/
inductive yyjson_val where
  | null
  | bool (b : Bool)
  | uint (n : Nat)
  | sint (i : Int)
  | real (bits : Nat)
  | str (s : String)
  | arr (xs : List yyjson_val)
  | obj (kvs : List (String × yyjson_val))

/-- An immutable document returned by `yyjson_read_opts`: its root and the
number of bytes read (`yyjson_doc_get_read_size`). -/
structure yyjson_doc where
  root : yyjson_val
  dat_read : Nat

/-- The yyjson functions whose result depends on the bytes.
`read_opts buf` is `yyjson_read_opts(buf, len, YYJSON_READ_STOP_WHEN_DONE,
NULL, &err)` on the `len` bytes `buf` (`none` is `NULL`);
`mut_write v` is `yyjson_mut_write(doc, 0, &len)` on the document with
root `v` (`none` is `NULL`). -/
structure Yyjson where
  read_opts : List Byte → Option yyjson_doc
  mut_write : yyjson_val → Option (List Byte)

/-- The function `yyjson_obj_get(obj, key)`: the value of the first member
whose key equals `key`; `NULL` when there is none or `obj` is not an
object. -/
def yyjson_obj_get : yyjson_val → String → Option yyjson_val
  | .obj kvs, key => (kvs.find? (fun kv => kv.1 == key)).map (fun kv => kv.2)
  | _, _ => none

/-- The function `yyjson_is_int(val)`; false on `NULL`. -/
def yyjson_is_int : Option yyjson_val → Bool
  | some (.uint _) => true
  | some (.sint _) => true
  | _ => false

/-- The function `yyjson_is_str(val)`; false on `NULL`. -/
def yyjson_is_str : Option yyjson_val → Bool
  | some (.str _) => true
  | _ => false

/-- The conversion `(int)` of a 64-bit integer to the 32-bit `int`, as
clang and gcc do it: the low 32 bits, read as a signed number. -/
def to_int32 (x : Int) : Int := (x + 2147483648) % 4294967296 - 2147483648

/-- The function `yyjson_get_int(val)`, which returns `int`: the integer
content cast to `int`, 0 when the value is not an integer. -/
def yyjson_get_int : Option yyjson_val → Int
  | some (.uint n) => to_int32 (Int.ofNat n)
  | some (.sint i) => to_int32 i
  | _ => 0

/-- The function `yyjson_get_str(val)`; `NULL` when the value is not a
string. -/
def yyjson_get_str : Option yyjson_val → Option String
  | some (.str s) => some s
  | _ => none

/-- The mathematical value of a JSON integer (before any narrowing). -/
def json_int_value : Option yyjson_val → Option Int
  | some (.uint n) => some (Int.ofNat n)
  | some (.sint i) => some i
  | _ => none

/-- The struct `aerospace`. -/
structure aerospace where
  fd : Int
  socket_path : String
  read_buf : List Byte
  read_buf_len : Nat

/-- The result of one `read(fd, buf, count)` call: the bytes stored (their
number is the return value, 0 at end of file), or an error (-1). -/
inductive ReadResult where
  | data (bytes : List Byte)
  | error

/-- The return value of `read`. -/
def ReadResult.bytes_read : ReadResult → Int
  | .data bytes => Int.ofNat bytes.length
  | .error => -1

/-- The socket as the client sees it. `reads i count` is the result of
the `i`-th `read` call when it asks for `count` bytes; `read_log` holds the
counts asked for so far and `write_log` the payloads passed to `writev`. -/
structure Sock where
  reads : Nat → Nat → ReadResult
  read_log : List Nat
  write_log : List (List Byte)

/-- The call `read(fd, _, count)`. -/
def sys_read (s : Sock) (count : Nat) : ReadResult × Sock :=
  (s.reads s.read_log.length count, { s with read_log := s.read_log ++ [count] })

/-- The call `writev(fd, iov, n)`: the spans are sent as one payload. Its
return value only decides whether `perror` prints. -/
def sys_writev (s : Sock) (iov : List (List Byte)) : Sock :=
  { s with write_log := s.write_log ++ [iov.flatten] }

/-- Storing `bytes` into the array `buf` from offset `off` on. -/
def store_at (buf : List Byte) (off : Nat) (bytes : List Byte) : List Byte :=
  buf.take off ++ bytes ++ buf.drop (off + bytes.length)

/-- The call `memmove(buf, buf + src, n)`. -/
def memmove_front (buf : List Byte) (src n : Nat) : List Byte :=
  (buf.drop src).take n ++ buf.drop n

/-! ## `execute_aerospace_command` -/

/-- The bytes of the buffer that count: `read_buf[0 .. read_buf_len)`. -/
def aerospace.buffered (client : aerospace) : List Byte :=
  client.read_buf.take client.read_buf_len

/-- Lines 117-118: the buffered bytes are parsed when there are any. -/
def parse_attempt (lib : Yyjson) (client : aerospace) : Option yyjson_doc :=
  if client.read_buf_len > 0 then lib.read_opts client.buffered else none

/-- Lines 129 and 134 after a read that stored `bytes`: they lie at offset
`read_buf_len` and the length has grown by their number. -/
def recv (client : aerospace) (bytes : List Byte) : aerospace :=
  { client with
    read_buf := store_at client.read_buf client.read_buf_len bytes
    read_buf_len := client.read_buf_len + bytes.length }

/-- How the response-reassembly loop is left. -/
inductive LoopExit where
  | parsed (resp_doc : yyjson_doc)
  | overflow
  | recv_failed

/-- The loop `while (true)` of `execute_aerospace_command` (lines 116-135),
run for at most `fuel` iterations; `none` when the fuel runs out. -/
def read_loop (lib : Yyjson) : Nat → aerospace → Sock → Option (LoopExit × aerospace × Sock)
  | 0, _, _ => none
  | fuel + 1, client, sock =>
    match parse_attempt lib client with
    | some resp_doc => some (.parsed resp_doc, client, sock)
    | none =>
      if client.read_buf_len ≥ READ_BUFFER_SIZE then
        some (.overflow, { client with read_buf_len := 0 }, sock)
      else
        match sys_read sock (READ_BUFFER_SIZE - client.read_buf_len) with
        | (.error, sock1) => some (.recv_failed, client, sock1)
        | (.data bytes, sock1) =>
          if (ReadResult.data bytes).bytes_read ≤ 0 then some (.recv_failed, client, sock1)
          else read_loop lib fuel (recv client bytes) sock1

/-- The loop as `execute_aerospace_command` runs it. No run needs more
than `READ_BUFFER_SIZE + 1` iterations (`receive_response_total`) and more
iterations never change a result (`read_loop_mono`), so the bound cuts
nothing off. -/
def receive_response (lib : Yyjson) (client : aerospace) (sock : Sock) :
    Option (LoopExit × aerospace × Sock) :=
  read_loop lib (READ_BUFFER_SIZE + 1) client sock

/-- The request document built on lines 83-92. -/
def build_request (args : List String) (stdin_payload : Option String) : yyjson_val :=
  .obj [("command", .str (args.headD "")),
        ("stdin", .str (stdin_payload.getD "")),
        ("args", .arr (args.map yyjson_val.str))]

/-- Lines 142-167: the result selected from a parsed response. -/
def select_result (resp_root : yyjson_val) (expected_output_field : Option String) :
    Option String :=
  let exitCodeItem := yyjson_obj_get resp_root "exitCode"
  if yyjson_is_int exitCodeItem then
    let exitCode := to_int32 (yyjson_get_int exitCodeItem)
    if exitCode ≠ 0 then
      let output_item := yyjson_obj_get resp_root "stderr"
      if yyjson_is_str output_item then yyjson_get_str output_item else none
    else
      match expected_output_field with
      | some field =>
        let output_item := yyjson_obj_get resp_root field
        if yyjson_is_str output_item then yyjson_get_str output_item else none
      | none => none
  else none

/-- Lines 137-140: the consumed bytes are shifted out of the buffer. -/
def consume (client : aerospace) (parsed_bytes : Nat) : aerospace :=
  { client with
    read_buf :=
      if client.read_buf_len > parsed_bytes then
        memmove_front client.read_buf parsed_bytes (client.read_buf_len - parsed_bytes)
      else client.read_buf
    read_buf_len := size_sub client.read_buf_len parsed_bytes }

/-- What a call of `execute_aerospace_command` does: it ends the process
(`fatal_error`), or returns a string or `NULL` and leaves a client and a
socket state. `no_fuel` stands for a loop that has not ended within the
iteration bound. -/
inductive Outcome where
  | fatal (msg : String)
  | returned (ret : Option String) (client : aerospace) (sock : Sock)
  | no_fuel

/-- The function `execute_aerospace_command`. The argument vector and its
count are the list `args`; the client pointer is not `NULL`. The socket
state is passed in and handed back next to the client. -/
def execute_aerospace_command (lib : Yyjson) (client : aerospace) (sock : Sock)
    (args : List String) (stdin_payload expected_output_field : Option String) : Outcome :=
  if args.length = 0 then .returned none client sock
  else
    match lib.mut_write (build_request args stdin_payload) with
    | none => .fatal "Failed to print JSON to string"
    | some json_str =>
      let sock := sys_writev sock [json_str, [10]]
      match receive_response lib client sock with
      | none => .no_fuel
      | some (.overflow, client, sock) => .returned none client sock
      | some (.recv_failed, client, sock) => .returned none client sock
      | some (.parsed resp_doc, client, sock) =>
        let client := consume client resp_doc.dat_read
        .returned (select_result resp_doc.root expected_output_field) client sock

/-- The returned pointer of a call that returned. -/
def Outcome.result : Outcome → Option (Option String)
  | .returned ret _ _ => some ret
  | _ => none

/-- The buffered bytes a call that returned leaves behind. -/
def Outcome.buffered : Outcome → Option (List Byte)
  | .returned _ client _ => some client.buffered
  | _ => none

/-- The payloads of all `writev` calls made on the socket when a call has
returned. -/
def Outcome.write_log : Outcome → Option (List (List Byte))
  | .returned _ _ sock => some sock.write_log
  | _ => none

/-! ## `get_default_socket_path` and `aerospace_new` -/

/-- A record of the user database (`struct passwd`). -/
structure passwd where
  pw_name : String
  pw_uid : Nat

/-- The identity and environment of the calling process: the real user id
(`getuid`, the one `get_default_socket_path` reads), the effective user id
(`geteuid`, which differs from the real one in a set-user-ID program), the
environment and the user database lookups. -/
structure Process where
  getuid : Nat
  geteuid : Nat
  getenv : String → Option String
  getpwuid : Nat → Option passwd
  getpwnam : String → Option passwd

/-- The formatting `snprintf(path, len + 1, "/tmp/bobko.aerospace-%s.sock",
username)`. -/
def format_socket_path (username : String) : String :=
  "/tmp/bobko.aerospace-" ++ username ++ ".sock"

/-- The function `get_default_socket_path`; `Except.error` is the exit
through `fatal_error`. -/
def get_default_socket_path (p : Process) : Except String String :=
  let uid := p.getuid
  let pw := p.getpwuid uid
  let pw :=
    if uid = 0 then
      match p.getenv "SUDO_USER" with
      | some sudo_user =>
        match p.getpwnam sudo_user with
        | some pw_temp => some pw_temp
        | none => pw
      | none =>
        match p.getenv "USER" with
        | some user_env =>
          if user_env ≠ "root" then
            match p.getpwnam user_env with
            | some pw_temp => some pw_temp
            | none => pw
          else pw
        | none => pw
    else pw
  match pw with
  | none => .error "Unable to determine user information for default socket path"
  | some pw => .ok (format_socket_path pw.pw_name)

/-- The function `aerospace_new`. `uninit` is the content of the freshly
allocated array, `socket_ret` and `connect_ret` are the return values of
`socket` and `connect`; `Except.error` is the exit through `fatal_error`. -/
def aerospace_new (p : Process) (uninit : List Byte) (socket_ret connect_ret : Int)
    (socketPath : Option String) : Except String aerospace :=
  let path : Except String String :=
    match socketPath with
    | some sp => .ok sp
    | none => get_default_socket_path p
  match path with
  | .error msg => .error msg
  | .ok socket_path =>
    if socket_ret < 0 then .error "Failed to create Unix domain socket"
    else if connect_ret < 0 then .error "Failed to connect to AeroSpace socket"
    else .ok { fd := socket_ret, socket_path := socket_path, read_buf := uninit,
               read_buf_len := 0 }

/-! ## Concrete data for the examples -/

/-- The reply `exitCode` 0 with `stdout` "1\n2\n3". -/
def ok_reply : yyjson_val :=
  .obj [("exitCode", .uint 0), ("stdout", .str "1\n2\n3")]

/-- The reply `exitCode` 1 with `stderr` "no such workspace". -/
def err_reply : yyjson_val :=
  .obj [("exitCode", .uint 1), ("stderr", .str "no such workspace")]

/-- A reply whose `exitCode` is 2^32, with a `stderr` string and a `stdout`
string. -/
def wide_reply : yyjson_val :=
  .obj [("exitCode", .uint 4294967296), ("stderr", .str "boom"), ("stdout", .str "out")]

/-- A reply whose `exitCode` is a string. -/
def malformed_reply : yyjson_val :=
  .obj [("exitCode", .str "1"), ("stderr", .str "boom")]

/-- The bytes of an ASCII text. -/
def ascii (text : String) : List Byte :=
  text.data.map (fun ch => UInt8.ofNat ch.toNat)

/-- The JSON text of `ok_reply`. -/
def ok_text : List Byte :=
  ascii "\x7b\"exitCode\":0,\"stdout\":\"1\\n2\\n3\"\x7d"

/-- The JSON text of `err_reply`. -/
def err_text : List Byte :=
  ascii "\x7b\"exitCode\":1,\"stderr\":\"no such workspace\"\x7d"

/-- The JSON text of `wide_reply`. -/
def wide_text : List Byte :=
  ascii "\x7b\"exitCode\":4294967296,\"stderr\":\"boom\",\"stdout\":\"out\"\x7d"

/-- The JSON text of `malformed_reply`. -/
def malformed_text : List Byte :=
  ascii "\x7b\"exitCode\":\"1\",\"stderr\":\"boom\"\x7d"

/-- The replies the stand-in parser knows, by their JSON text. -/
def demo_replies : List (List Byte × yyjson_val) :=
  [(ok_text, ok_reply), (err_text, err_reply), (wide_text, wide_reply),
   (malformed_text, malformed_reply)]

/-- A small stand-in for the parser, for concrete runs. It knows the four
replies of `demo_replies`, none of which has a closing brace before its
last byte: the value read ends at the first byte 125, and the bytes up to
there must be one of the known texts. -/
def demo_read_opts (buf : List Byte) : Option yyjson_doc :=
  let i := buf.indexOf 125
  if i < buf.length then
    match demo_replies.lookup (buf.take (i + 1)) with
    | some root => some { root := root, dat_read := i + 1 }
    | none => none
  else none

/-- A JSON string without characters that need escaping. -/
def demo_write_str (text : String) : List Byte :=
  [34] ++ ascii text ++ [34]

/-- A small stand-in for the compact writer, for concrete runs: it writes
the documents that have the shape of a request, three members of which the
first two are strings and the third an array of strings. -/
def demo_mut_write : yyjson_val → Option (List Byte)
  | .obj [(k1, .str v1), (k2, .str v2), (k3, .arr items)] =>
    some ([123] ++ demo_write_str k1 ++ [58] ++ demo_write_str v1 ++ [44] ++
      demo_write_str k2 ++ [58] ++ demo_write_str v2 ++ [44] ++
      demo_write_str k3 ++ [58, 91] ++
      List.intercalate [44] (items.map (fun item =>
        match item with
        | .str text => demo_write_str text
        | _ => ascii "null")) ++ [93, 125])
  | _ => none

/-- The stand-in library. -/
def demo_lib : Yyjson :=
  { read_opts := demo_read_opts, mut_write := demo_mut_write }

/-- The request line of `workspace next` with an empty payload, without
its newline. -/
def workspace_next_text : List Byte :=
  ascii "\x7b\"command\":\"workspace\",\"stdin\":\"\",\"args\":[\"workspace\",\"next\"]\x7d"

/-- The request line of `list-workspaces --monitor focused` with an empty
payload, without its newline. -/
def list_workspaces_text : List Byte :=
  ascii ("\x7b\"command\":\"list-workspaces\",\"stdin\":\"\"," ++
    "\"args\":[\"list-workspaces\",\"--monitor\",\"focused\"]\x7d")

/-- A socket on which the successive reads deliver the given chunks (cut to
the count asked for) and then fail. -/
def demo_sock (chunks : List (List Byte)) : Sock :=
  { reads := fun i n =>
      match chunks.get? i with
      | some d => .data (d.take n)
      | none => .error
    read_log := []
    write_log := [] }

/-- A freshly created client. -/
def demo_client : aerospace :=
  { fd := 3, socket_path := "/tmp/bobko.aerospace-alice.sock",
    read_buf := List.replicate READ_BUFFER_SIZE 0, read_buf_len := 0 }

/-- The user database of the examples: root (0), bob (501), alice (502). -/
def demo_getpwuid (uid : Nat) : Option passwd :=
  if uid = 0 then some { pw_name := "root", pw_uid := 0 }
  else if uid = 501 then some { pw_name := "bob", pw_uid := 501 }
  else if uid = 502 then some { pw_name := "alice", pw_uid := 502 }
  else none

/-- The lookup by name in the user database of the examples. -/
def demo_getpwnam (name : String) : Option passwd :=
  if name = "root" then some { pw_name := "root", pw_uid := 0 }
  else if name = "bob" then some { pw_name := "bob", pw_uid := 501 }
  else if name = "alice" then some { pw_name := "alice", pw_uid := 502 }
  else none

/-- A set-user-ID root program started by bob: the real user id is bob's,
the effective one is 0; the environment, which the invoking user controls,
has `SUDO_USER=alice`. -/
def setuid_process : Process :=
  { getuid := 501, geteuid := 0,
    getenv := fun name => if name = "SUDO_USER" then some "alice" else none,
    getpwuid := demo_getpwuid, getpwnam := demo_getpwnam }

/-- A program run as root through sudo by alice. -/
def sudo_process : Process :=
  { getuid := 0, geteuid := 0,
    getenv := fun name =>
      if name = "SUDO_USER" then some "alice"
      else if name = "USER" then some "root" else none,
    getpwuid := demo_getpwuid, getpwnam := demo_getpwnam }

/-- A program run by root itself: no `SUDO_USER`, and `USER=root`. -/
def root_process : Process :=
  { getuid := 0, geteuid := 0,
    getenv := fun name => if name = "USER" then some "root" else none,
    getpwuid := demo_getpwuid, getpwnam := demo_getpwnam }

/-- The counts asked for by the reads that take in the chunks `chunks` one
after the other, starting from the logical length `len`. -/
def feed_counts (len : Nat) : List (List Byte) → List Nat
  | [] => []
  | d :: ds => (READ_BUFFER_SIZE - len) :: feed_counts (len + d.length) ds

/-! ## Properties of the parser and of the socket used as hypotheses -/

/-- The parser never reports more bytes read than it was given. -/
def ParserBounded (lib : Yyjson) : Prop :=
  ∀ buf doc, lib.read_opts buf = some doc → doc.dat_read ≤ buf.length

/-- Every `read` returns at most the number of bytes asked for. -/
def ReadsBounded (sock : Sock) : Prop :=
  ∀ i count bytes, sock.reads i count = .data bytes → bytes.length ≤ count

/-- From the next `read` on, the successive reads deliver the chunks
`chunks`, each whenever the count asked for has room for it. -/
def Delivers (sock : Sock) (chunks : List (List Byte)) : Prop :=
  ∀ i (h : i < chunks.length) count, (chunks.get ⟨i, h⟩).length ≤ count →
    sock.reads (sock.read_log.length + i) count = .data (chunks.get ⟨i, h⟩)

/-! ## The loop, one iteration at a time -/

theorem read_loop_parsed (lib : Yyjson) (fuel : Nat) (c : aerospace) (s : Sock)
    (d : yyjson_doc) (h : parse_attempt lib c = some d) :
    read_loop lib (fuel + 1) c s = some (.parsed d, c, s) := by
  simp [read_loop, h]

theorem read_loop_overflow (lib : Yyjson) (fuel : Nat) (c : aerospace) (s : Sock)
    (h : parse_attempt lib c = none) (hfull : READ_BUFFER_SIZE ≤ c.read_buf_len) :
    read_loop lib (fuel + 1) c s = some (.overflow, { c with read_buf_len := 0 }, s) := by
  simp [read_loop, h, hfull]

theorem read_loop_error (lib : Yyjson) (fuel : Nat) (c : aerospace) (s : Sock)
    (h : parse_attempt lib c = none) (hroom : c.read_buf_len < READ_BUFFER_SIZE)
    (hr : s.reads s.read_log.length (READ_BUFFER_SIZE - c.read_buf_len) = .error) :
    read_loop lib (fuel + 1) c s =
      some (.recv_failed, c, (sys_read s (READ_BUFFER_SIZE - c.read_buf_len)).2) := by
  simp [read_loop, h, Nat.not_le.mpr hroom, sys_read, hr]

theorem read_loop_eof (lib : Yyjson) (fuel : Nat) (c : aerospace) (s : Sock)
    (h : parse_attempt lib c = none) (hroom : c.read_buf_len < READ_BUFFER_SIZE)
    (hr : s.reads s.read_log.length (READ_BUFFER_SIZE - c.read_buf_len) = .data []) :
    read_loop lib (fuel + 1) c s =
      some (.recv_failed, c, (sys_read s (READ_BUFFER_SIZE - c.read_buf_len)).2) := by
  simp [read_loop, h, Nat.not_le.mpr hroom, sys_read, hr, ReadResult.bytes_read]

theorem read_loop_recv (lib : Yyjson) (fuel : Nat) (c : aerospace) (s : Sock)
    (bytes : List Byte)
    (h : parse_attempt lib c = none) (hroom : c.read_buf_len < READ_BUFFER_SIZE)
    (hr : s.reads s.read_log.length (READ_BUFFER_SIZE - c.read_buf_len) = .data bytes)
    (hne : bytes ≠ []) :
    read_loop lib (fuel + 1) c s =
      read_loop lib fuel (recv c bytes) (sys_read s (READ_BUFFER_SIZE - c.read_buf_len)).2 := by
  simp [read_loop, h, Nat.not_le.mpr hroom, sys_read, hr, ReadResult.bytes_read, hne]

/-! ## Termination of the loop -/

/-- With `READ_BUFFER_SIZE - read_buf_len + 1` iterations or more the loop
ends, and it has made at most `READ_BUFFER_SIZE - read_buf_len` reads. -/
theorem read_loop_total (lib : Yyjson) :
    ∀ (fuel : Nat) (c : aerospace) (s : Sock),
      READ_BUFFER_SIZE - c.read_buf_len + 1 ≤ fuel →
      ∃ e c1 s1, read_loop lib fuel c s = some (e, c1, s1) ∧
        s.read_log.length ≤ s1.read_log.length ∧
        s1.read_log.length ≤ s.read_log.length + (READ_BUFFER_SIZE - c.read_buf_len) := by
  intro fuel
  induction fuel with
  | zero => intro c s h; omega
  | succ fuel ih =>
    intro c s hfuel
    cases hp : parse_attempt lib c with
    | some d => exact ⟨_, _, _, read_loop_parsed lib fuel c s d hp, le_refl _, by omega⟩
    | none =>
      by_cases hfull : READ_BUFFER_SIZE ≤ c.read_buf_len
      · exact ⟨_, _, _, read_loop_overflow lib fuel c s hp hfull, le_refl _, by omega⟩
      · have hroom : c.read_buf_len < READ_BUFFER_SIZE := Nat.not_le.mp hfull
        cases hr : s.reads s.read_log.length (READ_BUFFER_SIZE - c.read_buf_len) with
        | error =>
          refine ⟨_, _, _, read_loop_error lib fuel c s hp hroom hr, ?_, ?_⟩
          · simp [sys_read]
          · simp [sys_read]; omega
        | data bytes =>
          by_cases hne : bytes = []
          · subst hne
            refine ⟨_, _, _, read_loop_eof lib fuel c s hp hroom hr, ?_, ?_⟩
            · simp [sys_read]
            · simp [sys_read]; omega
          · have hlen : 0 < bytes.length := List.length_pos.mpr hne
            have hrec := ih (recv c bytes)
              (sys_read s (READ_BUFFER_SIZE - c.read_buf_len)).2
              (by simp only [recv]; omega)
            obtain ⟨e, c1, s1, he, h1, h2⟩ := hrec
            refine ⟨e, c1, s1, ?_, ?_, ?_⟩
            · rw [read_loop_recv lib fuel c s bytes hp hroom hr hne]; exact he
            · simp [sys_read] at h1; omega
            · simp [sys_read, recv] at h2; omega

/-- More fuel does not change the result of a loop that has ended. -/
theorem read_loop_mono (lib : Yyjson) :
    ∀ (fuel : Nat) (c : aerospace) (s : Sock) (r : LoopExit × aerospace × Sock),
      read_loop lib fuel c s = some r → ∀ k, read_loop lib (fuel + k) c s = some r := by
  intro fuel
  induction fuel with
  | zero => intro c s r h; simp [read_loop] at h
  | succ fuel ih =>
    intro c s r h k
    have hk : fuel + 1 + k = (fuel + k) + 1 := by omega
    rw [hk]
    cases hp : parse_attempt lib c with
    | some d =>
      rw [read_loop_parsed lib fuel c s d hp] at h
      rw [read_loop_parsed lib (fuel + k) c s d hp]; exact h
    | none =>
      by_cases hfull : READ_BUFFER_SIZE ≤ c.read_buf_len
      · rw [read_loop_overflow lib fuel c s hp hfull] at h
        rw [read_loop_overflow lib (fuel + k) c s hp hfull]; exact h
      · have hroom : c.read_buf_len < READ_BUFFER_SIZE := Nat.not_le.mp hfull
        cases hr : s.reads s.read_log.length (READ_BUFFER_SIZE - c.read_buf_len) with
        | error =>
          rw [read_loop_error lib fuel c s hp hroom hr] at h
          rw [read_loop_error lib (fuel + k) c s hp hroom hr]; exact h
        | data bytes =>
          by_cases hne : bytes = []
          · subst hne
            rw [read_loop_eof lib fuel c s hp hroom hr] at h
            rw [read_loop_eof lib (fuel + k) c s hp hroom hr]; exact h
          · rw [read_loop_recv lib fuel c s bytes hp hroom hr hne] at h
            rw [read_loop_recv lib (fuel + k) c s bytes hp hroom hr hne]
            exact ih _ _ r h k

/-- The loop as run by `execute_aerospace_command` always ends. -/
theorem receive_response_total (lib : Yyjson) (c : aerospace) (s : Sock) :
    ∃ e c1 s1, receive_response lib c s = some (e, c1, s1) := by
  obtain ⟨e, c1, s1, h, _, _⟩ :=
    read_loop_total lib (READ_BUFFER_SIZE + 1) c s (by omega)
  exact ⟨e, c1, s1, h⟩

/-! ## The buffer invariant along the loop -/

theorem buffered_length_le (c : aerospace) : c.buffered.length ≤ c.read_buf_len := by
  simp [aerospace.buffered]

/-- The state in which the loop ends: the length is within the capacity, a
parsed document has read at most the buffered bytes, and the reads made
were asked for between 1 and `READ_BUFFER_SIZE - read_buf_len` bytes. -/
theorem read_loop_inv (lib : Yyjson) (hpb : ParserBounded lib) :
    ∀ (fuel : Nat) (c : aerospace) (s : Sock) (e : LoopExit) (c1 : aerospace) (s1 : Sock),
      ReadsBounded s → c.read_buf_len ≤ READ_BUFFER_SIZE →
      read_loop lib fuel c s = some (e, c1, s1) →
      c1.read_buf_len ≤ READ_BUFFER_SIZE ∧
      (∀ d, e = .parsed d → d.dat_read ≤ c1.read_buf_len) ∧
      s1.reads = s.reads ∧ s1.write_log = s.write_log ∧
      ∃ l, s1.read_log = s.read_log ++ l ∧
        ∀ n ∈ l, 1 ≤ n ∧ n ≤ READ_BUFFER_SIZE - c.read_buf_len := by
  intro fuel
  induction fuel with
  | zero => intro c s e c1 s1 _ _ h; simp [read_loop] at h
  | succ fuel ih =>
    intro c s e c1 s1 hrb hinv h
    cases hp : parse_attempt lib c with
    | some d =>
      rw [read_loop_parsed lib fuel c s d hp] at h
      simp only [Option.some.injEq, Prod.mk.injEq] at h
      obtain ⟨rfl, rfl, rfl⟩ := h
      refine ⟨hinv, ?_, rfl, rfl, [], by simp, by simp⟩
      intro d1 hd1
      cases hd1
      have hp1 : lib.read_opts c.buffered = some d := by
        unfold parse_attempt at hp
        split at hp
        · exact hp
        · cases hp
      exact le_trans (hpb _ _ hp1) (buffered_length_le c)
    | none =>
      by_cases hfull : READ_BUFFER_SIZE ≤ c.read_buf_len
      · rw [read_loop_overflow lib fuel c s hp hfull] at h
        simp only [Option.some.injEq, Prod.mk.injEq] at h
        obtain ⟨rfl, rfl, rfl⟩ := h
        exact ⟨Nat.zero_le _, (by intro d hd; cases hd), rfl, rfl, [], by simp, by simp⟩
      · have hroom : c.read_buf_len < READ_BUFFER_SIZE := Nat.not_le.mp hfull
        have hcount : ∀ n ∈ [READ_BUFFER_SIZE - c.read_buf_len],
            1 ≤ n ∧ n ≤ READ_BUFFER_SIZE - c.read_buf_len := by
          intro n hn
          simp only [List.mem_singleton] at hn
          omega
        cases hr : s.reads s.read_log.length (READ_BUFFER_SIZE - c.read_buf_len) with
        | error =>
          rw [read_loop_error lib fuel c s hp hroom hr] at h
          simp only [Option.some.injEq, Prod.mk.injEq] at h
          obtain ⟨rfl, rfl, rfl⟩ := h
          exact ⟨hinv, (by intro d hd; cases hd), rfl, rfl, _, rfl, hcount⟩
        | data bytes =>
          by_cases hne : bytes = []
          · subst hne
            rw [read_loop_eof lib fuel c s hp hroom hr] at h
            simp only [Option.some.injEq, Prod.mk.injEq] at h
            obtain ⟨rfl, rfl, rfl⟩ := h
            exact ⟨hinv, (by intro d hd; cases hd), rfl, rfl, _, rfl, hcount⟩
          · rw [read_loop_recv lib fuel c s bytes hp hroom hr hne] at h
            have hb : bytes.length ≤ READ_BUFFER_SIZE - c.read_buf_len := hrb _ _ _ hr
            have hlen : 0 < bytes.length := List.length_pos.mpr hne
            obtain ⟨h1, h2, h3, h4, l, h5, h6⟩ :=
              ih (recv c bytes) (sys_read s (READ_BUFFER_SIZE - c.read_buf_len)).2 e c1 s1
                hrb (by simp only [recv]; omega) h
            refine ⟨h1, h2, h3, h4, (READ_BUFFER_SIZE - c.read_buf_len) :: l, ?_, ?_⟩
            · rw [h5]; simp [sys_read]
            · intro n hn
              rcases List.mem_cons.mp hn with hn | hn
              · omega
              · have := h6 n hn
                simp only [recv] at this
                omega

/-! ## Bytes stored in the buffer -/

theorem store_at_take (buf : List Byte) (off : Nat) (bytes : List Byte)
    (h : off ≤ buf.length) :
    (store_at buf off bytes).take (off + bytes.length) = buf.take off ++ bytes := by
  have h1 : (buf.take off ++ bytes).length = off + bytes.length := by
    simp [List.length_take, Nat.min_eq_left h]
  unfold store_at
  rw [← h1, List.take_left]

theorem store_at_length (buf : List Byte) (off : Nat) (bytes : List Byte)
    (h : off ≤ buf.length) : off + bytes.length ≤ (store_at buf off bytes).length := by
  simp [store_at, List.length_take, Nat.min_eq_left h]

theorem store_at_store_at (buf : List Byte) (off : Nat) (a b : List Byte)
    (h : off ≤ buf.length) :
    store_at (store_at buf off a) (off + a.length) b = store_at buf off (a ++ b) := by
  have h1 : (buf.take off ++ a).length = off + a.length := by
    simp [List.length_take, Nat.min_eq_left h]
  have e1 : (store_at buf off a).take (off + a.length) = buf.take off ++ a :=
    store_at_take buf off a h
  have e2 : (store_at buf off a).drop (off + a.length + b.length) =
      buf.drop (off + (a ++ b).length) := by
    unfold store_at
    rw [← h1, ← List.drop_drop, List.drop_left, List.drop_drop, h1]
    congr 1
    simp
    omega
  unfold store_at at e1 e2 ⊢
  rw [e1, e2]
  simp

theorem store_at_nil (buf : List Byte) (off : Nat) : store_at buf off [] = buf := by
  simp [store_at]

theorem recv_buffered (c : aerospace) (bytes : List Byte)
    (h : c.read_buf_len ≤ c.read_buf.length) :
    (recv c bytes).buffered = c.buffered ++ bytes := by
  simp only [aerospace.buffered, recv]
  exact store_at_take _ _ _ h

theorem recv_fits (c : aerospace) (bytes : List Byte)
    (h : c.read_buf_len ≤ c.read_buf.length) :
    (recv c bytes).read_buf_len ≤ (recv c bytes).read_buf.length := by
  simp only [recv]
  exact store_at_length _ _ _ h

theorem recv_recv (c : aerospace) (a b : List Byte)
    (h : c.read_buf_len ≤ c.read_buf.length) :
    recv (recv c a) b = recv c (a ++ b) := by
  simp only [recv, store_at_store_at _ _ _ _ h, List.length_append, Nat.add_assoc]

theorem recv_nil (c : aerospace) : recv c [] = c := by
  simp [recv, store_at_nil]

theorem buffered_length (c : aerospace) (h : c.read_buf_len ≤ c.read_buf.length) :
    c.buffered.length = c.read_buf_len := by
  simp [aerospace.buffered, List.length_take, Nat.min_eq_left h]

theorem feed_counts_length (len : Nat) (chunks : List (List Byte)) :
    (feed_counts len chunks).length = chunks.length := by
  induction chunks generalizing len with
  | nil => rfl
  | cons d ds ih => simp [feed_counts, ih]

/-! ## A run of reads none of which completes a message -/

/-- When the successive reads deliver `chunks`, these fit into the buffer
and no buffer content met before the last chunk has arrived parses, the
loop takes them all in: what is left to run is the loop on the buffer
holding all their bytes. -/
theorem read_loop_feed (lib : Yyjson) :
    ∀ (chunks : List (List Byte)) (fuel : Nat) (c : aerospace) (s : Sock),
      c.read_buf_len ≤ c.read_buf.length →
      Delivers s chunks →
      (∀ d ∈ chunks, d ≠ []) →
      c.read_buf_len + chunks.flatten.length ≤ READ_BUFFER_SIZE →
      (∀ j, j < chunks.length → c.buffered ++ (chunks.take j).flatten ≠ [] →
        lib.read_opts (c.buffered ++ (chunks.take j).flatten) = none) →
      read_loop lib (fuel + chunks.length) c s =
        read_loop lib fuel (recv c chunks.flatten)
          { s with read_log := s.read_log ++ feed_counts c.read_buf_len chunks } := by
  intro chunks
  induction chunks with
  | nil =>
    intro fuel c s _ _ _ _ _
    simp [recv_nil, feed_counts]
  | cons d ds ih =>
    intro fuel c s hfit hdel hne hcap hfail
    have hd : d ≠ [] := hne d (List.mem_cons_self _ _)
    have hdlen : 0 < d.length := List.length_pos.mpr hd
    have hflat : (d :: ds).flatten.length = d.length + ds.flatten.length := by simp
    have hroom : c.read_buf_len < READ_BUFFER_SIZE := by omega
    have hp : parse_attempt lib c = none := by
      unfold parse_attempt
      split
      · next hpos =>
        have h0 := hfail 0 (by simp)
        simp only [List.take_zero, List.flatten_nil, List.append_nil] at h0
        apply h0
        intro hnil
        have := buffered_length c hfit
        rw [hnil] at this
        simp at this
        omega
      · rfl
    have hr : s.reads s.read_log.length (READ_BUFFER_SIZE - c.read_buf_len) = .data d := by
      have := hdel 0 (by simp) (READ_BUFFER_SIZE - c.read_buf_len) (by simp; omega)
      simpa using this
    have hk : fuel + (d :: ds).length = (fuel + ds.length) + 1 := by simp; omega
    rw [hk, read_loop_recv lib _ c s d hp hroom hr hd]
    have hdel1 : Delivers (sys_read s (READ_BUFFER_SIZE - c.read_buf_len)).2 ds := by
      intro i hi count hcount
      have := hdel (i + 1) (by simp; omega) count (by simpa using hcount)
      simp only [sys_read, List.length_append, List.length_singleton]
      rw [Nat.add_assoc, Nat.add_comm 1 i]
      simpa using this
    have hfail1 : ∀ j, j < ds.length → (recv c d).buffered ++ (ds.take j).flatten ≠ [] →
        lib.read_opts ((recv c d).buffered ++ (ds.take j).flatten) = none := by
      intro j hj hnn
      have := hfail (j + 1) (by simp; omega)
      rw [recv_buffered c d hfit] at hnn ⊢
      simp only [List.take_succ_cons, List.flatten_cons, ← List.append_assoc] at this
      exact this hnn
    rw [ih fuel (recv c d) _ (recv_fits c d hfit) hdel1
      (fun x hx => hne x (List.mem_cons_of_mem _ hx))
      (by simp only [recv]; omega) hfail1]
    rw [recv_recv c d _ hfit]
    simp [sys_read, feed_counts, recv]

/-! ## What the loop leaves untouched -/

/-- The loop only appends to the read log of the socket, and it keeps the
buffered bytes inside the array. -/
theorem read_loop_frame (lib : Yyjson) :
    ∀ (fuel : Nat) (c : aerospace) (s : Sock) (e : LoopExit) (c1 : aerospace) (s1 : Sock),
      read_loop lib fuel c s = some (e, c1, s1) →
      s1.reads = s.reads ∧ s1.write_log = s.write_log ∧
      (∃ l, s1.read_log = s.read_log ++ l) ∧
      (c.read_buf_len ≤ c.read_buf.length → c1.read_buf_len ≤ c1.read_buf.length) ∧
      (∀ d, e = .parsed d → lib.read_opts c1.buffered = some d ∧ 0 < c1.read_buf_len) := by
  intro fuel
  induction fuel with
  | zero => intro c s e c1 s1 h; simp [read_loop] at h
  | succ fuel ih =>
    intro c s e c1 s1 h
    cases hp : parse_attempt lib c with
    | some d =>
      rw [read_loop_parsed lib fuel c s d hp] at h
      simp only [Option.some.injEq, Prod.mk.injEq] at h
      obtain ⟨rfl, rfl, rfl⟩ := h
      refine ⟨rfl, rfl, ⟨[], by simp⟩, id, ?_⟩
      intro d1 hd1
      cases hd1
      unfold parse_attempt at hp
      split at hp
      · next hpos => exact ⟨hp, hpos⟩
      · cases hp
    | none =>
      by_cases hfull : READ_BUFFER_SIZE ≤ c.read_buf_len
      · rw [read_loop_overflow lib fuel c s hp hfull] at h
        simp only [Option.some.injEq, Prod.mk.injEq] at h
        obtain ⟨rfl, rfl, rfl⟩ := h
        exact ⟨rfl, rfl, ⟨[], by simp⟩, (fun _ => Nat.zero_le _),
          (by intro d hd; cases hd)⟩
      · have hroom : c.read_buf_len < READ_BUFFER_SIZE := Nat.not_le.mp hfull
        cases hr : s.reads s.read_log.length (READ_BUFFER_SIZE - c.read_buf_len) with
        | error =>
          rw [read_loop_error lib fuel c s hp hroom hr] at h
          simp only [Option.some.injEq, Prod.mk.injEq] at h
          obtain ⟨rfl, rfl, rfl⟩ := h
          exact ⟨rfl, rfl, ⟨_, rfl⟩, id, (by intro d hd; cases hd)⟩
        | data bytes =>
          by_cases hne : bytes = []
          · subst hne
            rw [read_loop_eof lib fuel c s hp hroom hr] at h
            simp only [Option.some.injEq, Prod.mk.injEq] at h
            obtain ⟨rfl, rfl, rfl⟩ := h
            exact ⟨rfl, rfl, ⟨_, rfl⟩, id, (by intro d hd; cases hd)⟩
          · rw [read_loop_recv lib fuel c s bytes hp hroom hr hne] at h
            obtain ⟨h1, h2, ⟨l, h3⟩, h4, h5⟩ := ih _ _ e c1 s1 h
            refine ⟨h1, h2, ⟨(READ_BUFFER_SIZE - c.read_buf_len) :: l, ?_⟩, ?_, h5⟩
            · rw [h3]; simp [sys_read]
            · intro hfit
              exact h4 (recv_fits c bytes hfit)

/-! ## `execute_aerospace_command`, exit by exit -/

theorem execute_no_args (lib : Yyjson) (c : aerospace) (s : Sock)
    (stdin_payload expected : Option String) :
    execute_aerospace_command lib c s [] stdin_payload expected = .returned none c s := by
  simp [execute_aerospace_command]

theorem execute_fatal (lib : Yyjson) (c : aerospace) (s : Sock) (args : List String)
    (stdin_payload expected : Option String) (hargs : args ≠ [])
    (hw : lib.mut_write (build_request args stdin_payload) = none) :
    execute_aerospace_command lib c s args stdin_payload expected =
      .fatal "Failed to print JSON to string" := by
  have hlen : args.length ≠ 0 := by simpa using hargs
  simp [execute_aerospace_command, hlen, hw]

theorem execute_parsed (lib : Yyjson) (c : aerospace) (s : Sock) (args : List String)
    (stdin_payload expected : Option String) (json_str : List Byte)
    (d : yyjson_doc) (c1 : aerospace) (s1 : Sock) (hargs : args ≠ [])
    (hw : lib.mut_write (build_request args stdin_payload) = some json_str)
    (hloop : receive_response lib c (sys_writev s [json_str, [10]]) = some (.parsed d, c1, s1)) :
    execute_aerospace_command lib c s args stdin_payload expected =
      .returned (select_result d.root expected) (consume c1 d.dat_read) s1 := by
  have hlen : args.length ≠ 0 := by simpa using hargs
  simp [execute_aerospace_command, hlen, hw, hloop]

theorem execute_overflow (lib : Yyjson) (c : aerospace) (s : Sock) (args : List String)
    (stdin_payload expected : Option String) (json_str : List Byte)
    (c1 : aerospace) (s1 : Sock) (hargs : args ≠ [])
    (hw : lib.mut_write (build_request args stdin_payload) = some json_str)
    (hloop : receive_response lib c (sys_writev s [json_str, [10]]) = some (.overflow, c1, s1)) :
    execute_aerospace_command lib c s args stdin_payload expected = .returned none c1 s1 := by
  have hlen : args.length ≠ 0 := by simpa using hargs
  simp [execute_aerospace_command, hlen, hw, hloop]

theorem execute_recv_failed (lib : Yyjson) (c : aerospace) (s : Sock) (args : List String)
    (stdin_payload expected : Option String) (json_str : List Byte)
    (c1 : aerospace) (s1 : Sock) (hargs : args ≠ [])
    (hw : lib.mut_write (build_request args stdin_payload) = some json_str)
    (hloop : receive_response lib c (sys_writev s [json_str, [10]]) =
      some (.recv_failed, c1, s1)) :
    execute_aerospace_command lib c s args stdin_payload expected = .returned none c1 s1 := by
  have hlen : args.length ≠ 0 := by simpa using hargs
  simp [execute_aerospace_command, hlen, hw, hloop]

/-! ## The narrowing of the exit code -/

theorem to_int32_eq_zero_iff (x : Int) : to_int32 x = 0 ↔ x % 4294967296 = 0 := by
  unfold to_int32
  omega

theorem to_int32_idem (x : Int) : to_int32 (to_int32 x) = to_int32 x := by
  unfold to_int32
  omega

/-- The exit code the function compares with 0, for an integer item of
value `x`. -/
theorem exit_code_of_int (item : Option yyjson_val) (x : Int)
    (h : json_int_value item = some x) :
    yyjson_is_int item = true ∧ to_int32 (yyjson_get_int item) = to_int32 x := by
  cases item with
  | none => simp [json_int_value] at h
  | some v =>
    cases v <;> simp [json_int_value] at h <;>
      simp [yyjson_is_int, yyjson_get_int, to_int32_idem, ← h]

/-! ## Shifting the consumed bytes out -/

theorem size_sub_eq (a b : Nat) (hb : b ≤ a) (ha : a < SIZE_MOD) : size_sub a b = a - b := by
  unfold size_sub
  have hb1 : b % SIZE_MOD = b := Nat.mod_eq_of_lt (by omega)
  rw [hb1]
  have : a + SIZE_MOD - b = (a - b) + SIZE_MOD := by omega
  rw [this, Nat.add_mod_right]
  exact Nat.mod_eq_of_lt (by omega)

theorem consume_len (c : aerospace) (n : Nat) (hn : n ≤ c.read_buf_len)
    (hcap : c.read_buf_len ≤ READ_BUFFER_SIZE) :
    (consume c n).read_buf_len = c.read_buf_len - n := by
  simp only [consume]
  apply size_sub_eq _ _ hn
  have : READ_BUFFER_SIZE < SIZE_MOD := by decide
  omega

theorem consume_buffered (c : aerospace) (n : Nat) (hn : n ≤ c.read_buf_len)
    (hcap : c.read_buf_len ≤ READ_BUFFER_SIZE) (hfit : c.read_buf_len ≤ c.read_buf.length) :
    (consume c n).buffered = c.buffered.drop n := by
  have hlen := consume_len c n hn hcap
  unfold aerospace.buffered
  rw [hlen]
  simp only [consume]
  split
  · next hgt =>
    unfold memmove_front
    have h1 : ((c.read_buf.drop n).take (c.read_buf_len - n)).length = c.read_buf_len - n := by
      simp [List.length_take]
      omega
    rw [List.take_append_of_le_length (by omega), List.take_take, Nat.min_self,
      List.drop_take]
  · next hle =>
    have : c.read_buf_len = n := by omega
    simp [this]

/-! ## The stand-in parser and socket meet the hypotheses -/

theorem demo_lib_bounded : ParserBounded demo_lib := by
  intro buf doc h
  simp only [demo_lib, demo_read_opts] at h
  split at h
  · next hlt =>
    split at h
    · cases h
      exact hlt
    · cases h
  · cases h

theorem demo_sock_bounded (chunks : List (List Byte)) : ReadsBounded (demo_sock chunks) := by
  intro i count bytes h
  simp only [demo_sock] at h
  split at h
  · cases h
    simp [List.length_take]
  · cases h

theorem demo_sock_delivers (chunks : List (List Byte)) :
    Delivers (demo_sock chunks) chunks := by
  intro i hi count hcount
  have hget : chunks.get? i = some (chunks.get ⟨i, hi⟩) := List.get?_eq_get hi
  simp only [demo_sock, List.length_nil, Nat.zero_add, hget]
  rw [List.take_of_length_le hcount]

theorem demo_read_opts_none (buf : List Byte) (h : (125 : Byte) ∉ buf) :
    demo_read_opts buf = none := by
  have : ¬ (buf.indexOf 125 < buf.length) := by
    rw [List.indexOf_lt_length]
    exact h
  simp [demo_read_opts, this]

theorem demo_read_opts_begin (resp : List Byte) (h : (125 : Byte) ∉ resp.dropLast)
    (p q : List Byte) (hpq : p ++ q = resp) (hq : q ≠ []) : demo_read_opts p = none := by
  apply demo_read_opts_none
  intro hmem
  apply h
  rw [← hpq, List.dropLast_append_of_ne_nil _ hq]
  exact List.mem_append_left _ hmem

theorem is_int_false_of_no_value (item : Option yyjson_val)
    (h : json_int_value item = none) : yyjson_is_int item = false := by
  cases item with
  | none => rfl
  | some v => cases v <;> simp [json_int_value] at h <;> rfl

theorem head_eq_headD (args : List String) (h : args ≠ []) :
    args.headD "" = args.head h := by
  cases args with
  | nil => exact absurd rfl h
  | cons a rest => rfl

/-- A call with arguments whose request was serialised returns. -/
theorem execute_returns (lib : Yyjson) (c : aerospace) (s : Sock) (args : List String)
    (stdin_payload expected : Option String) (json_str : List Byte) (hargs : args ≠ [])
    (hw : lib.mut_write (build_request args stdin_payload) = some json_str) :
    ∃ e c1 s1 ret c2,
      receive_response lib c (sys_writev s [json_str, [10]]) = some (e, c1, s1) ∧
      execute_aerospace_command lib c s args stdin_payload expected = .returned ret c2 s1 ∧
      ((e = .overflow ∨ e = .recv_failed) → ret = none ∧ c2 = c1) ∧
      (∀ d, e = .parsed d →
        ret = select_result d.root expected ∧ c2 = consume c1 d.dat_read) := by
  obtain ⟨e, c1, s1, hloop⟩ := receive_response_total lib c (sys_writev s [json_str, [10]])
  cases e with
  | parsed d =>
    refine ⟨_, c1, s1, _, _, hloop,
      execute_parsed lib c s args stdin_payload expected json_str d c1 s1 hargs hw hloop,
      ?_, ?_⟩
    · intro h; rcases h with h | h <;> cases h
    · intro d1 hd1; cases hd1; exact ⟨rfl, rfl⟩
  | overflow =>
    refine ⟨_, c1, s1, _, _, hloop,
      execute_overflow lib c s args stdin_payload expected json_str c1 s1 hargs hw hloop,
      ?_, ?_⟩
    · intro _; exact ⟨rfl, rfl⟩
    · intro d1 hd1; cases hd1
  | recv_failed =>
    refine ⟨_, c1, s1, _, _, hloop,
      execute_recv_failed lib c s args stdin_payload expected json_str c1 s1 hargs hw hloop,
      ?_, ?_⟩
    · intro _; exact ⟨rfl, rfl⟩
    · intro d1 hd1; cases hd1

/-! ## Calls that take in a whole run of chunks -/

theorem length_le_flatten_length (chunks : List (List Byte)) (hne : ∀ x ∈ chunks, x ≠ []) :
    chunks.length ≤ chunks.flatten.length := by
  induction chunks with
  | nil => simp
  | cons d ds ih =>
    have hd : 0 < d.length := List.length_pos.mpr (hne d (List.mem_cons_self _ _))
    have := ih (fun x hx => hne x (List.mem_cons_of_mem _ hx))
    simp only [List.length_cons, List.flatten_cons, List.length_append]
    omega

theorem flatten_drop_ne_nil (chunks : List (List Byte)) (hne : ∀ x ∈ chunks, x ≠ [])
    (j : Nat) (hj : j < chunks.length) : (chunks.drop j).flatten ≠ [] := by
  induction chunks generalizing j with
  | nil => simp at hj
  | cons d ds ih =>
    cases j with
    | zero =>
      simp only [List.drop_zero, List.flatten_cons]
      intro h
      exact hne d (List.mem_cons_self _ _) (List.append_eq_nil.mp h).1
    | succ j =>
      simp only [List.drop_succ_cons]
      exact ih (fun x hx => hne x (List.mem_cons_of_mem _ hx)) j (by simpa using hj)

theorem flatten_take_append_drop (chunks : List (List Byte)) (j : Nat) :
    (chunks.take j).flatten ++ (chunks.drop j).flatten = chunks.flatten := by
  rw [← List.flatten_append, List.take_append_drop]

/-- The loop on an empty buffer when the reads deliver, in pieces, a
response `resp` that parses and none of whose proper beginnings parses: it
ends with the document parsed from the buffer holding exactly `resp`. -/
theorem receive_response_delivered (lib : Yyjson) (c : aerospace) (s : Sock)
    (resp : List Byte) (d : yyjson_doc) (chunks : List (List Byte))
    (hempty : c.read_buf_len = 0) (hsize : resp.length ≤ READ_BUFFER_SIZE)
    (hp : lib.read_opts resp = some d)
    (hbegin : ∀ p q, p ++ q = resp → p ≠ [] → q ≠ [] → lib.read_opts p = none)
    (hchunks : chunks.flatten = resp) (hne : ∀ x ∈ chunks, x ≠ [])
    (hsome : chunks ≠ [])
    (hdel : Delivers s chunks) :
    receive_response lib c s =
      some (.parsed d, recv c resp,
        { s with read_log := s.read_log ++ feed_counts c.read_buf_len chunks }) := by
  have hfit : c.read_buf_len ≤ c.read_buf.length := by omega
  have hbuf : c.buffered = [] := by simp [aerospace.buffered, hempty]
  have hk : chunks.length ≤ READ_BUFFER_SIZE := by
    have := length_le_flatten_length chunks hne
    rw [hchunks] at this
    omega
  have hresp : resp ≠ [] := by
    rw [← hchunks]
    have := flatten_drop_ne_nil chunks hne 0 (List.length_pos.mpr hsome)
    simpa using this
  have hfuel : READ_BUFFER_SIZE + 1 = (READ_BUFFER_SIZE - chunks.length) + 1 + chunks.length := by
    omega
  unfold receive_response
  rw [hfuel, read_loop_feed lib chunks _ c s hfit hdel hne (by rw [hchunks]; omega)]
  · rw [hchunks]
    apply read_loop_parsed
    unfold parse_attempt
    rw [recv_buffered c _ hfit, hbuf, List.nil_append, hp]
    have : 0 < resp.length := List.length_pos.mpr hresp
    simp [recv, this]
  · intro j hj hnn
    rw [hbuf, List.nil_append] at hnn ⊢
    exact hbegin _ ((chunks.drop j).flatten)
      (by rw [flatten_take_append_drop, hchunks]) hnn (flatten_drop_ne_nil chunks hne j hj)

/-! ## The claims -/

/-- C1 (as stated, refuted): the reply `wide_reply` has the integer
`exitCode` 2^32, which is not 0, and the string `stderr` "boom", yet the
call does not return "boom": narrowed to `int` the exit code is 0, so the
call returns `NULL` when no expected field is asked for and the `stdout`
string when `stdout` is asked for. -/
theorem stderr_lost_on_exit_code_two_pow_32 :
    json_int_value (yyjson_obj_get wide_reply "exitCode") = some 4294967296 ∧
    (4294967296 : Int) ≠ 0 ∧
    yyjson_get_str (yyjson_obj_get wide_reply "stderr") = some "boom" ∧
    (∃ c1 s1, receive_response demo_lib demo_client
        (sys_writev (demo_sock [wide_text]) [workspace_next_text, [10]]) =
          some (.parsed { root := wide_reply, dat_read := wide_text.length }, c1, s1)) ∧
    (execute_aerospace_command demo_lib demo_client (demo_sock [wide_text])
      ["workspace", "next"] (some "") none).result = some none ∧
    (execute_aerospace_command demo_lib demo_client (demo_sock [wide_text])
      ["workspace", "next"] (some "") (some "stdout")).result = some (some "out") := by
  refine ⟨rfl, by decide, rfl, ⟨_, _, rfl⟩, by decide, by decide⟩

/-- C1 (amended): for non-empty `args`, whatever `expected_output_field`
is, when the parsed response has an integer `exitCode` that is not a
multiple of 2^32 (every nonzero value of the 32-bit range is such) and a
string `stderr`, `execute_aerospace_command` returns exactly that string. -/
theorem stderr_returned_on_nonzero_exit (lib : Yyjson) (c : aerospace) (s : Sock)
    (args : List String) (stdin_payload expected : Option String) (json_str : List Byte)
    (d : yyjson_doc) (c1 : aerospace) (s1 : Sock) (x : Int) (err : String)
    (hargs : args ≠ [])
    (hw : lib.mut_write (build_request args stdin_payload) = some json_str)
    (hloop : receive_response lib c (sys_writev s [json_str, [10]]) = some (.parsed d, c1, s1))
    (hx : json_int_value (yyjson_obj_get d.root "exitCode") = some x)
    (hnz : x % 4294967296 ≠ 0)
    (herr : yyjson_obj_get d.root "stderr" = some (.str err)) :
    execute_aerospace_command lib c s args stdin_payload expected =
      .returned (some err) (consume c1 d.dat_read) s1 := by
  rw [execute_parsed lib c s args stdin_payload expected json_str d c1 s1 hargs hw hloop]
  obtain ⟨hint, hcode⟩ := exit_code_of_int _ x hx
  have hne : to_int32 (yyjson_get_int (yyjson_obj_get d.root "exitCode")) ≠ 0 := by
    rw [hcode]
    intro h0
    exact hnz ((to_int32_eq_zero_iff x).mp h0)
  simp [select_result, hint, hne, herr, yyjson_is_str, yyjson_get_str]

/-- C1, witness: the reply with `exitCode` 1 and `stderr`
"no such workspace", no expected field. -/
theorem stderr_returned_on_nonzero_exit_witness :
    (execute_aerospace_command demo_lib demo_client (demo_sock [err_text])
      ["workspace", "next"] (some "") none).result = some (some "no such workspace") :=
  congrArg Outcome.result
    (stderr_returned_on_nonzero_exit demo_lib demo_client (demo_sock [err_text])
      ["workspace", "next"] (some "") none workspace_next_text
      { root := err_reply, dat_read := err_text.length } _ _ 1 "no such workspace"
      (by decide) rfl rfl rfl (by decide) rfl)

/-- C2: for non-empty `args`, when the parsed response has the integer
`exitCode` 0 and the field named by the supplied `expected_output_field` is
a string, `execute_aerospace_command` returns exactly that string. -/
theorem expected_field_returned_on_zero_exit (lib : Yyjson) (c : aerospace) (s : Sock)
    (args : List String) (stdin_payload : Option String) (field : String)
    (json_str : List Byte) (d : yyjson_doc) (c1 : aerospace) (s1 : Sock) (value : String)
    (hargs : args ≠ [])
    (hw : lib.mut_write (build_request args stdin_payload) = some json_str)
    (hloop : receive_response lib c (sys_writev s [json_str, [10]]) = some (.parsed d, c1, s1))
    (hx : json_int_value (yyjson_obj_get d.root "exitCode") = some 0)
    (hval : yyjson_obj_get d.root field = some (.str value)) :
    execute_aerospace_command lib c s args stdin_payload (some field) =
      .returned (some value) (consume c1 d.dat_read) s1 := by
  rw [execute_parsed lib c s args stdin_payload (some field) json_str d c1 s1 hargs hw hloop]
  obtain ⟨hint, hcode⟩ := exit_code_of_int _ 0 hx
  have h0 : to_int32 (yyjson_get_int (yyjson_obj_get d.root "exitCode")) = 0 := by
    rw [hcode]; decide
  simp [select_result, hint, h0, hval, yyjson_is_str, yyjson_get_str]

/-- C2, witness: the reply with `exitCode` 0 and `stdout` "1\n2\n3",
expected field `stdout`. -/
theorem expected_field_returned_on_zero_exit_witness :
    (execute_aerospace_command demo_lib demo_client (demo_sock [ok_text])
      ["list-workspaces", "--monitor", "focused"] (some "") (some "stdout")).result =
      some (some "1\n2\n3") :=
  congrArg Outcome.result
    (expected_field_returned_on_zero_exit demo_lib demo_client (demo_sock [ok_text])
      ["list-workspaces", "--monitor", "focused"] (some "") "stdout" list_workspaces_text
      { root := ok_reply, dat_read := ok_text.length } _ _ "1\n2\n3"
      (by decide) rfl rfl rfl rfl)

/-- C6: when the parsed response has no integer `exitCode` (the member is
missing or is not an integer), `execute_aerospace_command` returns `NULL`
whatever `stderr` and the expected field hold, and the bytes the parser
read are gone from the buffer: the logical length is lower by the consumed
count and the buffered bytes are those that followed the response. -/
theorem malformed_exit_code_discarded (lib : Yyjson) (c : aerospace) (s : Sock)
    (args : List String) (stdin_payload expected : Option String) (json_str : List Byte)
    (d : yyjson_doc) (c1 : aerospace) (s1 : Sock)
    (hargs : args ≠ [])
    (hw : lib.mut_write (build_request args stdin_payload) = some json_str)
    (hpb : ParserBounded lib) (hrb : ReadsBounded s)
    (hcap : c.read_buf_len ≤ READ_BUFFER_SIZE) (hfit : c.read_buf_len ≤ c.read_buf.length)
    (hloop : receive_response lib c (sys_writev s [json_str, [10]]) = some (.parsed d, c1, s1))
    (hbad : json_int_value (yyjson_obj_get d.root "exitCode") = none) :
    ∃ c2, execute_aerospace_command lib c s args stdin_payload expected =
        .returned none c2 s1 ∧
      d.dat_read ≤ c1.read_buf_len ∧
      c2.read_buf_len = c1.read_buf_len - d.dat_read ∧
      c2.buffered = c1.buffered.drop d.dat_read := by
  have hrb1 : ReadsBounded (sys_writev s [json_str, [10]]) := hrb
  obtain ⟨hcap1, hread, _, _, _⟩ :=
    read_loop_inv lib hpb _ c _ _ c1 s1 hrb1 hcap hloop
  obtain ⟨_, _, _, hfit1, _⟩ := read_loop_frame lib _ c _ _ c1 s1 hloop
  have hn := hread d rfl
  refine ⟨consume c1 d.dat_read, ?_, hn, consume_len c1 _ hn hcap1,
    consume_buffered c1 _ hn hcap1 (hfit1 hfit)⟩
  rw [execute_parsed lib c s args stdin_payload expected json_str d c1 s1 hargs hw hloop]
  simp [select_result, is_int_false_of_no_value _ hbad]

/-- C6, witness: a reply whose `exitCode` is a string, followed in the
same read by a second reply, which stays in the buffer. -/
theorem malformed_exit_code_discarded_witness :
    (execute_aerospace_command demo_lib demo_client (demo_sock [malformed_text ++ ok_text])
      ["workspace", "next"] (some "") (some "stderr")).result = some none ∧
    (execute_aerospace_command demo_lib demo_client (demo_sock [malformed_text ++ ok_text])
      ["workspace", "next"] (some "") (some "stderr")).buffered = some ok_text := by
  obtain ⟨c2, h, _, _, hbuf⟩ :=
    malformed_exit_code_discarded demo_lib demo_client (demo_sock [malformed_text ++ ok_text])
      ["workspace", "next"] (some "") (some "stderr") workspace_next_text
      { root := malformed_reply, dat_read := malformed_text.length } _ _
      (by decide) rfl demo_lib_bounded (demo_sock_bounded _) (by decide) (Nat.zero_le _) rfl rfl
  rw [h]
  refine ⟨rfl, ?_⟩
  simp only [Outcome.buffered, hbuf]
  decide

/-- C9: for a non-empty `args` and any `stdin_payload`, the document handed
to the serialiser has exactly the members `command` = `args[0]`, `stdin` =
the payload (the empty string when there is none) and `args` = all the
arguments in their order, `args[0]` included; what is passed to `writev` is
the serialised request followed by the one byte 10 (newline). -/
theorem request_built_and_written (lib : Yyjson) (c : aerospace) (s : Sock)
    (args : List String) (stdin_payload expected : Option String) (json_str : List Byte)
    (hargs : args ≠ [])
    (hw : lib.mut_write
      (.obj [("command", .str (args.head hargs)),
             ("stdin", .str (stdin_payload.getD "")),
             ("args", .arr (args.map yyjson_val.str))]) = some json_str) :
    ∃ ret c1 s1, execute_aerospace_command lib c s args stdin_payload expected =
        .returned ret c1 s1 ∧
      s1.write_log = s.write_log ++ [json_str ++ [10]] := by
  have hw1 : lib.mut_write (build_request args stdin_payload) = some json_str := by
    unfold build_request
    rw [head_eq_headD args hargs]
    exact hw
  obtain ⟨e, c1, s1, ret, c2, hloop, hexec, _, _⟩ :=
    execute_returns lib c s args stdin_payload expected json_str hargs hw1
  obtain ⟨_, hwl, _, _, _⟩ := read_loop_frame lib _ c _ e c1 s1 hloop
  refine ⟨ret, c2, s1, hexec, ?_⟩
  rw [hwl]
  simp [sys_writev]

/-- C9, witness: the request of `workspace next` with no payload. -/
theorem request_built_and_written_witness :
    (execute_aerospace_command demo_lib demo_client (demo_sock [ok_text])
      ["workspace", "next"] none none).write_log = some [workspace_next_text ++ [10]] := by
  obtain ⟨ret, c1, s1, h, hlog⟩ :=
    request_built_and_written demo_lib demo_client (demo_sock [ok_text])
      ["workspace", "next"] none none workspace_next_text (by decide) rfl
  rw [h]
  simp only [Outcome.write_log, hlog]
  rfl

/-- C10: the loop ends whenever every read returns. From a buffer with
`read_buf_len ≤ 8192`, for every parser and every sequence of read results,
`8192 - read_buf_len + 1` iterations are enough for it to end, and it has
then made at most `8192 - read_buf_len + 1` reads; a read that returns 0
or less ends it at once with a failure; a full buffer that does not parse
ends it with an overflow; a read that returns bytes lowers
`8192 - read_buf_len`; and the bound inside `execute_aerospace_command`
is never what ends a call. -/
theorem read_loop_terminates (lib : Yyjson) (c : aerospace) (s : Sock) (fuel : Nat)
    (_hcap : c.read_buf_len ≤ READ_BUFFER_SIZE)
    (hfuel : READ_BUFFER_SIZE - c.read_buf_len + 1 ≤ fuel) :
    (∃ e c1 s1 l, read_loop lib fuel c s = some (e, c1, s1) ∧
      s1.read_log = s.read_log ++ l ∧
      l.length ≤ READ_BUFFER_SIZE - c.read_buf_len + 1) ∧
    (parse_attempt lib c = none → c.read_buf_len < READ_BUFFER_SIZE →
      (s.reads s.read_log.length (READ_BUFFER_SIZE - c.read_buf_len)).bytes_read ≤ 0 →
      ∃ s1, read_loop lib fuel c s = some (.recv_failed, c, s1) ∧
        s1.read_log = s.read_log ++ [READ_BUFFER_SIZE - c.read_buf_len]) ∧
    (parse_attempt lib c = none → c.read_buf_len = READ_BUFFER_SIZE →
      read_loop lib fuel c s = some (.overflow, { c with read_buf_len := 0 }, s)) ∧
    (∀ bytes, bytes ≠ [] → c.read_buf_len < READ_BUFFER_SIZE →
      READ_BUFFER_SIZE - (recv c bytes).read_buf_len <
        READ_BUFFER_SIZE - c.read_buf_len) ∧
    (∀ args stdin_payload expected,
      execute_aerospace_command lib c s args stdin_payload expected ≠ .no_fuel) := by
  obtain ⟨k, rfl⟩ : ∃ k, fuel = k + 1 := ⟨fuel - 1, by omega⟩
  refine ⟨?_, ?_, ?_, ?_, ?_⟩
  · obtain ⟨e, c1, s1, h, h1, h2⟩ := read_loop_total lib (k + 1) c s hfuel
    obtain ⟨_, _, ⟨l, hl⟩, _, _⟩ := read_loop_frame lib _ c s e c1 s1 h
    refine ⟨e, c1, s1, l, h, hl, ?_⟩
    rw [hl, List.length_append] at h2
    omega
  · intro hp hroom hret
    cases hr : s.reads s.read_log.length (READ_BUFFER_SIZE - c.read_buf_len) with
    | error => exact ⟨_, read_loop_error lib k c s hp hroom hr, rfl⟩
    | data bytes =>
      rw [hr] at hret
      have hnil : bytes = [] := by
        have h0 : (Int.ofNat bytes.length) ≤ 0 := hret
        simp at h0
        exact h0
      subst hnil
      exact ⟨_, read_loop_eof lib k c s hp hroom hr, rfl⟩
  · intro hp hfull
    exact read_loop_overflow lib k c s hp (by omega)
  · intro bytes hne hroom
    have : 0 < bytes.length := List.length_pos.mpr hne
    simp only [recv]
    omega
  · intro args stdin_payload expected
    cases args with
    | nil => rw [execute_no_args]; intro h; cases h
    | cons a rest =>
      cases hw : lib.mut_write (build_request (a :: rest) stdin_payload) with
      | none =>
        rw [execute_fatal lib c s (a :: rest) stdin_payload expected (by simp) hw]
        intro h; cases h
      | some json_str =>
        obtain ⟨e, c1, s1, ret, c2, _, hexec, _, _⟩ :=
          execute_returns lib c s (a :: rest) stdin_payload expected json_str (by simp) hw
        rw [hexec]
        intro h; cases h

/-- C10, witness: the fresh client on a socket whose reads all fail. -/
theorem read_loop_terminates_witness :
    ∃ e c1 s1 l, read_loop demo_lib (READ_BUFFER_SIZE + 1) demo_client (demo_sock []) =
        some (e, c1, s1) ∧
      s1.read_log = (demo_sock []).read_log ++ l ∧
      l.length ≤ READ_BUFFER_SIZE - demo_client.read_buf_len + 1 :=
  (read_loop_terminates demo_lib demo_client (demo_sock []) (READ_BUFFER_SIZE + 1)
    (by decide) (by decide)).1

/-- C7: the logical length stays within the capacity. A new client has
`read_buf_len ≤ 8192`. When the reads return at most the count asked for
and the parser reports at most the bytes it was given, every call of
`execute_aerospace_command` on a client with `read_buf_len ≤ 8192` either
ends the process or returns leaving `read_buf_len ≤ 8192`, every read it
made having asked for between 1 and `8192 - read_buf_len` bytes; and when
the loop ends with a parsed document, the consumed count is at most the
length, so the `size_t` subtraction is the plain one. -/
theorem read_buf_len_within_capacity :
    (∀ (p : Process) (uninit : List Byte) (socket_ret connect_ret : Int)
        (socketPath : Option String) (c : aerospace),
      aerospace_new p uninit socket_ret connect_ret socketPath = .ok c →
      c.read_buf_len ≤ READ_BUFFER_SIZE) ∧
    (∀ (lib : Yyjson) (c : aerospace) (s : Sock) (args : List String)
        (stdin_payload expected : Option String),
      c.read_buf_len ≤ READ_BUFFER_SIZE → ReadsBounded s → ParserBounded lib →
      (∃ msg, execute_aerospace_command lib c s args stdin_payload expected = .fatal msg) ∨
      (∃ ret c1 s1 l,
        execute_aerospace_command lib c s args stdin_payload expected =
          .returned ret c1 s1 ∧
        c1.read_buf_len ≤ READ_BUFFER_SIZE ∧ ReadsBounded s1 ∧
        s1.read_log = s.read_log ++ l ∧
        ∀ n ∈ l, 1 ≤ n ∧ n ≤ READ_BUFFER_SIZE - c.read_buf_len)) ∧
    (∀ (lib : Yyjson) (c : aerospace) (s : Sock) (d : yyjson_doc) (c1 : aerospace)
        (s1 : Sock),
      c.read_buf_len ≤ READ_BUFFER_SIZE → ReadsBounded s → ParserBounded lib →
      receive_response lib c s = some (.parsed d, c1, s1) →
      d.dat_read ≤ c1.read_buf_len ∧
      (consume c1 d.dat_read).read_buf_len = c1.read_buf_len - d.dat_read) := by
  refine ⟨?_, ?_, ?_⟩
  · intro p uninit socket_ret connect_ret socketPath c h
    simp only [aerospace_new] at h
    split at h
    · cases h
    · split at h
      · cases h
      · split at h
        · cases h
        · cases h
          exact Nat.zero_le _
  · intro lib c s args stdin_payload expected hcap hrb hpb
    cases args with
    | nil =>
      right
      exact ⟨none, c, s, [], execute_no_args lib c s stdin_payload expected, hcap, hrb,
        by simp, by simp⟩
    | cons a rest =>
      cases hw : lib.mut_write (build_request (a :: rest) stdin_payload) with
      | none =>
        left
        exact ⟨_, execute_fatal lib c s (a :: rest) stdin_payload expected (by simp) hw⟩
      | some json_str =>
        right
        obtain ⟨e, c1, s1, ret, c2, hloop, hexec, hfail, hparsed⟩ :=
          execute_returns lib c s (a :: rest) stdin_payload expected json_str (by simp) hw
        have hrb1 : ReadsBounded (sys_writev s [json_str, [10]]) := hrb
        obtain ⟨hcap1, hread, hreads, _, l, hl, hcounts⟩ :=
          read_loop_inv lib hpb _ c _ e c1 s1 hrb1 hcap hloop
        have hrb2 : ReadsBounded s1 := by
          intro i count bytes h
          rw [hreads] at h
          exact hrb i count bytes h
        refine ⟨ret, c2, s1, l, hexec, ?_, hrb2, hl, hcounts⟩
        cases e with
        | parsed d =>
          obtain ⟨_, hc2⟩ := hparsed d rfl
          rw [hc2, consume_len c1 _ (hread d rfl) hcap1]
          omega
        | overflow =>
          obtain ⟨_, hc2⟩ := hfail (Or.inl rfl)
          rw [hc2]; exact hcap1
        | recv_failed =>
          obtain ⟨_, hc2⟩ := hfail (Or.inr rfl)
          rw [hc2]; exact hcap1
  · intro lib c s d c1 s1 hcap hrb hpb hloop
    obtain ⟨hcap1, hread, _, _, _⟩ := read_loop_inv lib hpb _ c s _ c1 s1 hrb hcap hloop
    exact ⟨hread d rfl, consume_len c1 _ (hread d rfl) hcap1⟩

/-- C7, witness: a call on the fresh client that reads a reply followed by
a second one. -/
theorem read_buf_len_within_capacity_witness :
    (∃ msg, execute_aerospace_command demo_lib demo_client
        (demo_sock [ok_text ++ err_text]) ["workspace", "next"] none none =
          .fatal msg) ∨
    (∃ ret c1 s1 l,
      execute_aerospace_command demo_lib demo_client
          (demo_sock [ok_text ++ err_text]) ["workspace", "next"] none none =
        .returned ret c1 s1 ∧
      c1.read_buf_len ≤ READ_BUFFER_SIZE ∧ ReadsBounded s1 ∧
      s1.read_log = (demo_sock [ok_text ++ err_text]).read_log ++ l ∧
      ∀ n ∈ l, 1 ≤ n ∧ n ≤ READ_BUFFER_SIZE - demo_client.read_buf_len) :=
  read_buf_len_within_capacity.2.1 demo_lib demo_client
    (demo_sock [ok_text ++ err_text]) ["workspace", "next"] none none
    (by decide) (demo_sock_bounded _) demo_lib_bounded

/-- C3: from an empty buffer, when one read delivers a message `m1`
followed by a message `m2` (together at most 8192 bytes), the first call
parses `m1` and consumes exactly its bytes, leaving `m2` at the front of the
buffer with logical length `|m2|`; the next call returns what it selects
from the document parsed from `m2` and makes no read. -/
theorem two_messages_in_one_read (lib : Yyjson) (c : aerospace) (s : Sock)
    (args1 args2 : List String) (stdin1 stdin2 expected1 expected2 : Option String)
    (json1 json2 m1 m2 : List Byte) (d1 d2 : yyjson_doc)
    (hempty : c.read_buf_len = 0)
    (hm1 : m1 ≠ []) (hm2 : m2 ≠ [])
    (hsize : m1.length + m2.length ≤ READ_BUFFER_SIZE)
    (hread : s.reads s.read_log.length READ_BUFFER_SIZE = .data (m1 ++ m2))
    (hp1 : lib.read_opts (m1 ++ m2) = some d1) (hn1 : d1.dat_read = m1.length)
    (hp2 : lib.read_opts m2 = some d2) (hn2 : d2.dat_read = m2.length)
    (hargs1 : args1 ≠ []) (hw1 : lib.mut_write (build_request args1 stdin1) = some json1)
    (hargs2 : args2 ≠ []) (hw2 : lib.mut_write (build_request args2 stdin2) = some json2) :
    ∃ c1 s1,
      execute_aerospace_command lib c s args1 stdin1 expected1 =
        .returned (select_result d1.root expected1) c1 s1 ∧
      c1.buffered = m2 ∧ c1.read_buf_len = m2.length ∧
      s1.read_log = s.read_log ++ [READ_BUFFER_SIZE] ∧
      ∃ c2 s2,
        execute_aerospace_command lib c1 s1 args2 stdin2 expected2 =
          .returned (select_result d2.root expected2) c2 s2 ∧
        s2.read_log = s1.read_log ∧ c2.read_buf_len = 0 := by
  have hfit : c.read_buf_len ≤ c.read_buf.length := by omega
  have hbuf : c.buffered = [] := by simp [aerospace.buffered, hempty]
  have hlen1 : 0 < m1.length := List.length_pos.mpr hm1
  have hlen2 : 0 < m2.length := List.length_pos.mpr hm2
  have hne : m1 ++ m2 ≠ [] := by
    intro h; exact hm1 (List.append_eq_nil.mp h).1
  -- the first call: one read, then the parse of `m1 ++ m2`
  have hp0 : parse_attempt lib c = none := by simp [parse_attempt, hempty]
  have hr : (sys_writev s [json1, [10]]).reads (sys_writev s [json1, [10]]).read_log.length
      (READ_BUFFER_SIZE - c.read_buf_len) = .data (m1 ++ m2) := by
    rw [hempty]; exact hread
  have hparse1 : parse_attempt lib (recv c (m1 ++ m2)) = some d1 := by
    unfold parse_attempt
    rw [recv_buffered c _ hfit, hbuf, List.nil_append, hp1]
    have hpos : 0 < (recv c (m1 ++ m2)).read_buf_len := by
      simp only [recv, List.length_append]
      omega
    simp [hpos]
  have hloop1 : receive_response lib c (sys_writev s [json1, [10]]) =
      some (.parsed d1, recv c (m1 ++ m2),
        (sys_read (sys_writev s [json1, [10]]) (READ_BUFFER_SIZE - c.read_buf_len)).2) := by
    unfold receive_response
    rw [read_loop_recv lib _ c _ (m1 ++ m2) hp0 (by rw [hempty]; decide) hr hne]
    exact read_loop_parsed lib 8191 _ _ d1 hparse1
  have hrlen : (recv c (m1 ++ m2)).read_buf_len = m1.length + m2.length := by
    simp [recv, hempty]
  have hcons_len : (consume (recv c (m1 ++ m2)) d1.dat_read).read_buf_len = m2.length := by
    rw [consume_len _ _ (by rw [hrlen, hn1]; omega) (by rw [hrlen]; exact hsize), hrlen, hn1]
    omega
  have hcons_buf : (consume (recv c (m1 ++ m2)) d1.dat_read).buffered = m2 := by
    rw [consume_buffered _ _ (by rw [hrlen, hn1]; omega) (by rw [hrlen]; exact hsize)
      (recv_fits c _ hfit), recv_buffered c _ hfit, hbuf, List.nil_append, hn1,
      List.drop_left]
  refine ⟨_, _, execute_parsed lib c s args1 stdin1 expected1 json1 d1 _ _ hargs1 hw1 hloop1,
    hcons_buf, hcons_len, ?_, ?_⟩
  · simp [sys_read, sys_writev, hempty]
  · -- the second call: the parse of the retained `m2`, no read
    have hparse2 : parse_attempt lib (consume (recv c (m1 ++ m2)) d1.dat_read) = some d2 := by
      unfold parse_attempt
      rw [hcons_buf, hcons_len, hp2]
      simp [hlen2]
    have hloop2 := read_loop_parsed lib READ_BUFFER_SIZE
      (consume (recv c (m1 ++ m2)) d1.dat_read)
      (sys_writev (sys_read (sys_writev s [json1, [10]])
        (READ_BUFFER_SIZE - c.read_buf_len)).2 [json2, [10]]) d2 hparse2
    refine ⟨_, _, execute_parsed lib _ _ args2 stdin2 expected2 json2 d2 _ _ hargs2 hw2 hloop2,
      rfl, ?_⟩
    rw [consume_len _ _ (by rw [hcons_len, hn2]) (by rw [hcons_len]; omega), hcons_len, hn2]
    omega

/-- C3, witness: one read delivers an error reply followed by a success
reply; the two calls return the `stderr` of the first and the `stdout` of
the second, and only one read is ever made. -/
theorem two_messages_in_one_read_witness :
    ∃ c1 s1,
      execute_aerospace_command demo_lib demo_client
          (demo_sock [err_text ++ ok_text]) ["workspace", "next"] none none =
        .returned (some "no such workspace") c1 s1 ∧
      c1.buffered = ok_text ∧ c1.read_buf_len = ok_text.length ∧
      s1.read_log = [READ_BUFFER_SIZE] ∧
      ∃ c2 s2,
        execute_aerospace_command demo_lib c1 s1
            ["list-workspaces", "--monitor", "focused"] none (some "stdout") =
          .returned (some "1\n2\n3") c2 s2 ∧
        s2.read_log = s1.read_log ∧ c2.read_buf_len = 0 :=
  two_messages_in_one_read demo_lib demo_client (demo_sock [err_text ++ ok_text])
    ["workspace", "next"] ["list-workspaces", "--monitor", "focused"] none none none
    (some "stdout") workspace_next_text list_workspaces_text err_text ok_text
    { root := err_reply, dat_read := err_text.length }
    { root := ok_reply, dat_read := ok_text.length }
    rfl (by decide) (by decide) (by decide) rfl rfl rfl rfl rfl (by decide) rfl (by decide) rfl

/-- C4: from an empty buffer, for a response of at most 8192 bytes that
parses as a whole and none of whose proper beginnings parses (a complete
JSON object, ended by its closing brace), delivered by successive reads in
two or more non-empty chunks, `execute_aerospace_command` returns the same
result and leaves the same client, buffer included, as when one read
delivers all the bytes. -/
theorem split_reads_same_as_single_read (lib : Yyjson) (c : aerospace)
    (s_split s_single : Sock) (args : List String) (stdin_payload expected : Option String)
    (json_str resp : List Byte) (d : yyjson_doc) (chunks : List (List Byte))
    (hempty : c.read_buf_len = 0) (hsize : resp.length ≤ READ_BUFFER_SIZE)
    (hp : lib.read_opts resp = some d)
    (hbegin : ∀ p q, p ++ q = resp → p ≠ [] → q ≠ [] → lib.read_opts p = none)
    (hchunks : chunks.flatten = resp) (hne : ∀ x ∈ chunks, x ≠ [])
    (htwo : 2 ≤ chunks.length)
    (hsplit : Delivers s_split chunks) (hsingle : Delivers s_single [resp])
    (hargs : args ≠ [])
    (hw : lib.mut_write (build_request args stdin_payload) = some json_str) :
    ∃ ret c1 s1 s2,
      execute_aerospace_command lib c s_split args stdin_payload expected =
        .returned ret c1 s1 ∧
      execute_aerospace_command lib c s_single args stdin_payload expected =
        .returned ret c1 s2 ∧
      ret = select_result d.root expected ∧
      s1.read_log.length = s_split.read_log.length + chunks.length ∧
      s2.read_log.length = s_single.read_log.length + 1 := by
  have hsome : chunks ≠ [] := by
    intro h; rw [h] at htwo; simp at htwo
  have hresp : resp ≠ [] := by
    rw [← hchunks]
    have := flatten_drop_ne_nil chunks hne 0 (List.length_pos.mpr hsome)
    simpa using this
  have h1 := receive_response_delivered lib c (sys_writev s_split [json_str, [10]]) resp d
    chunks hempty hsize hp hbegin hchunks hne hsome hsplit
  have h2 := receive_response_delivered lib c (sys_writev s_single [json_str, [10]]) resp d
    [resp] hempty hsize hp hbegin (by simp)
    (by intro x hx; rw [List.mem_singleton.mp hx]; exact hresp) (by simp) hsingle
  refine ⟨_, _, _, _,
    execute_parsed lib c s_split args stdin_payload expected json_str d _ _ hargs hw h1,
    execute_parsed lib c s_single args stdin_payload expected json_str d _ _ hargs hw h2,
    rfl, ?_, ?_⟩
  · simp [sys_writev, feed_counts_length]
  · simp [sys_writev, feed_counts_length]

/-- C4, witness: the success reply delivered as its first ten bytes and
then the rest. -/
theorem split_reads_same_as_single_read_witness :
    ∃ ret c1 s1 s2,
      execute_aerospace_command demo_lib demo_client
          (demo_sock [ok_text.take 10, ok_text.drop 10])
          ["list-workspaces", "--monitor", "focused"] none (some "stdout") =
        .returned ret c1 s1 ∧
      execute_aerospace_command demo_lib demo_client (demo_sock [ok_text])
          ["list-workspaces", "--monitor", "focused"] none (some "stdout") =
        .returned ret c1 s2 ∧
      ret = select_result ok_reply (some "stdout") ∧
      s1.read_log.length =
        (demo_sock [ok_text.take 10, ok_text.drop 10]).read_log.length +
          [ok_text.take 10, ok_text.drop 10].length ∧
      s2.read_log.length = (demo_sock [ok_text]).read_log.length + 1 :=
  split_reads_same_as_single_read demo_lib demo_client
    (demo_sock [ok_text.take 10, ok_text.drop 10]) (demo_sock [ok_text])
    ["list-workspaces", "--monitor", "focused"] none (some "stdout") list_workspaces_text
    ok_text { root := ok_reply, dat_read := ok_text.length }
    [ok_text.take 10, ok_text.drop 10]
    rfl (by decide) rfl
    (fun p q h _ hq => demo_read_opts_begin ok_text (by decide) p q h hq)
    (by simp) (by decide) (by decide) (demo_sock_delivers _) (demo_sock_delivers _)
    (by decide) rfl

/-- C5: when the bytes in the buffer and those the successive reads deliver
are the first 8192 bytes of a response longer than 8192 bytes, no beginning
of which of at most 8192 bytes parses, `execute_aerospace_command` returns
`NULL` and leaves the logical length 0; it has made exactly the reads that
filled the buffer. -/
theorem oversized_response_overflows (lib : Yyjson) (c : aerospace) (s : Sock)
    (args : List String) (stdin_payload expected : Option String)
    (json_str resp : List Byte) (chunks : List (List Byte))
    (hfit : c.read_buf_len ≤ c.read_buf.length)
    (hlong : READ_BUFFER_SIZE < resp.length)
    (hnoparse : ∀ p q, p ++ q = resp → p ≠ [] → p.length ≤ READ_BUFFER_SIZE →
      lib.read_opts p = none)
    (hchunks : c.buffered ++ chunks.flatten = resp.take READ_BUFFER_SIZE)
    (hne : ∀ x ∈ chunks, x ≠ [])
    (hdel : Delivers s chunks)
    (hargs : args ≠ [])
    (hw : lib.mut_write (build_request args stdin_payload) = some json_str) :
    ∃ c1 s1,
      execute_aerospace_command lib c s args stdin_payload expected =
        .returned none c1 s1 ∧
      c1.read_buf_len = 0 ∧
      s1.read_log.length = s.read_log.length + chunks.length := by
  have htake : (resp.take READ_BUFFER_SIZE).length = READ_BUFFER_SIZE := by
    rw [List.length_take]; omega
  have hfull : c.read_buf_len + chunks.flatten.length = READ_BUFFER_SIZE := by
    rw [← buffered_length c hfit, ← List.length_append, hchunks, htake]
  have hk : chunks.length ≤ READ_BUFFER_SIZE := by
    have := length_le_flatten_length chunks hne
    omega
  have hfuel : READ_BUFFER_SIZE + 1 = (READ_BUFFER_SIZE - chunks.length) + 1 + chunks.length := by
    omega
  have hfail : ∀ j, j < chunks.length → c.buffered ++ (chunks.take j).flatten ≠ [] →
      lib.read_opts (c.buffered ++ (chunks.take j).flatten) = none := by
    intro j _ hnn
    apply hnoparse _ ((chunks.drop j).flatten ++ resp.drop READ_BUFFER_SIZE) _ hnn
    · have h1 : (chunks.take j).flatten.length ≤ chunks.flatten.length := by
        rw [← flatten_take_append_drop chunks j, List.length_append]
        omega
      rw [List.length_append, buffered_length c hfit]
      omega
    · rw [List.append_assoc, ← List.append_assoc (chunks.take j).flatten,
        flatten_take_append_drop, ← List.append_assoc, hchunks, List.take_append_drop]
  have hp : parse_attempt lib (recv c chunks.flatten) = none := by
    unfold parse_attempt
    split
    · rw [recv_buffered c _ hfit, hchunks]
      apply hnoparse _ (resp.drop READ_BUFFER_SIZE) (List.take_append_drop _ _)
      · intro h
        rw [h] at htake
        simp [READ_BUFFER_SIZE] at htake
      · omega
    · rfl
  have hloop : receive_response lib c (sys_writev s [json_str, [10]]) =
      some (.overflow, { recv c chunks.flatten with read_buf_len := 0 },
        { sys_writev s [json_str, [10]] with
          read_log := (sys_writev s [json_str, [10]]).read_log ++
            feed_counts c.read_buf_len chunks }) := by
    unfold receive_response
    rw [hfuel, read_loop_feed lib chunks _ c (sys_writev s [json_str, [10]]) hfit hdel hne
      (by omega) hfail]
    exact read_loop_overflow lib _ _ _ hp (by simp only [recv]; omega)
  refine ⟨_, _,
    execute_overflow lib c s args stdin_payload expected json_str _ _ hargs hw hloop, rfl, ?_⟩
  simp [sys_writev, feed_counts_length]

/-- C5, witness: 8193 zero bytes, of which one read delivers the first
8192; the fresh client overflows and is left empty. -/
theorem oversized_response_overflows_witness :
    ∃ c1 s1,
      execute_aerospace_command demo_lib demo_client
          (demo_sock [List.replicate READ_BUFFER_SIZE 0]) ["workspace", "next"] none none =
        .returned none c1 s1 ∧
      c1.read_buf_len = 0 ∧
      s1.read_log.length =
        (demo_sock [List.replicate READ_BUFFER_SIZE 0]).read_log.length +
          [List.replicate READ_BUFFER_SIZE (0 : Byte)].length :=
  oversized_response_overflows demo_lib demo_client
    (demo_sock [List.replicate READ_BUFFER_SIZE 0]) ["workspace", "next"] none none
    workspace_next_text (List.replicate (READ_BUFFER_SIZE + 1) 0)
    [List.replicate READ_BUFFER_SIZE 0]
    (Nat.zero_le _) (by simp)
    (by
      intro p q h _ _
      apply demo_read_opts_none
      intro hmem
      have hin : (125 : Byte) ∈ List.replicate (READ_BUFFER_SIZE + 1) (0 : Byte) := by
        rw [← h]; exact List.mem_append_left _ hmem
      have := List.eq_of_mem_replicate hin
      exact absurd this (by decide))
    (by simp [aerospace.buffered, demo_client, List.take_replicate])
    (by
      intro x hx
      rw [List.mem_singleton.mp hx]
      intro h
      have := congrArg List.length h
      rw [List.length_replicate] at this
      exact absurd this (by decide))
    (demo_sock_delivers _) (by decide) rfl

/-- C8 (as stated, refuted): the effective user id of `setuid_process` is
the superuser id, `SUDO_USER` is set to "alice" and that account resolves,
yet the path is built from "bob", the account of the real user id: the
function tests `getuid()`, not the effective user id. -/
theorem default_path_ignores_effective_uid :
    setuid_process.geteuid = 0 ∧
    setuid_process.getenv "SUDO_USER" = some "alice" ∧
    (setuid_process.getpwnam "alice").map passwd.pw_name = some "alice" ∧
    get_default_socket_path setuid_process = .ok "/tmp/bobko.aerospace-bob.sock" ∧
    "/tmp/bobko.aerospace-bob.sock" ≠ "/tmp/bobko.aerospace-alice.sock" := by
  refine ⟨rfl, rfl, rfl, rfl, by decide⟩

/-- C8 (amended): the default socket path is
"/tmp/bobko.aerospace-<user>.sock", where the choice of `<user>` goes by the
real user id (`getuid`). When it is not the superuser id, `<user>` is the
name of that user's account. When it is the superuser id: the account named
by `SUDO_USER` when the variable is set and resolves; when `SUDO_USER` is
absent, the account named by `USER` when that is set, is not "root" and
resolves; and when neither yields an account, the superuser's own account
name. -/
theorem default_socket_path_by_real_uid (p : Process) :
    (∀ pw, p.getuid ≠ 0 → p.getpwuid p.getuid = some pw →
      get_default_socket_path p =
        .ok ("/tmp/bobko.aerospace-" ++ pw.pw_name ++ ".sock")) ∧
    (∀ name pw, p.getuid = 0 → p.getenv "SUDO_USER" = some name →
      p.getpwnam name = some pw →
      get_default_socket_path p =
        .ok ("/tmp/bobko.aerospace-" ++ pw.pw_name ++ ".sock")) ∧
    (∀ name pw, p.getuid = 0 → p.getenv "SUDO_USER" = none →
      p.getenv "USER" = some name → name ≠ "root" → p.getpwnam name = some pw →
      get_default_socket_path p =
        .ok ("/tmp/bobko.aerospace-" ++ pw.pw_name ++ ".sock")) ∧
    (∀ pw, p.getuid = 0 → p.getpwuid 0 = some pw →
      ((∃ name, p.getenv "SUDO_USER" = some name ∧ p.getpwnam name = none) ∨
       (p.getenv "SUDO_USER" = none ∧
         (p.getenv "USER" = none ∨ p.getenv "USER" = some "root" ∨
          ∃ name, p.getenv "USER" = some name ∧ p.getpwnam name = none))) →
      get_default_socket_path p =
        .ok ("/tmp/bobko.aerospace-" ++ pw.pw_name ++ ".sock")) := by
  refine ⟨?_, ?_, ?_, ?_⟩
  · intro pw huid hpw
    simp [get_default_socket_path, huid, hpw, format_socket_path]
  · intro name pw huid hsudo hpw
    simp [get_default_socket_path, huid, hsudo, hpw, format_socket_path]
  · intro name pw huid hsudo huser hroot hpw
    simp [get_default_socket_path, huid, hsudo, huser, hroot, hpw, format_socket_path]
  · intro pw huid hpw hcase
    rcases hcase with ⟨name, hsudo, hnone⟩ | ⟨hsudo, huser | huser | ⟨name, huser, hnone⟩⟩
    · simp [get_default_socket_path, huid, hsudo, hnone, hpw, format_socket_path]
    · simp [get_default_socket_path, huid, hsudo, huser, hpw, format_socket_path]
    · simp [get_default_socket_path, huid, hsudo, huser, hpw, format_socket_path]
    · by_cases hroot : name = "root"
      · simp [get_default_socket_path, huid, hsudo, huser, hroot, hpw, format_socket_path]
      · simp [get_default_socket_path, huid, hsudo, huser, hroot, hnone, hpw,
          format_socket_path]

/-- C8, witness: under sudo with `SUDO_USER=alice` the path is alice's; for
root with no `SUDO_USER` and `USER=root` it is root's. -/
theorem default_socket_path_by_real_uid_witness :
    get_default_socket_path sudo_process = .ok "/tmp/bobko.aerospace-alice.sock" ∧
    get_default_socket_path root_process = .ok "/tmp/bobko.aerospace-root.sock" :=
  ⟨(default_socket_path_by_real_uid sudo_process).2.1 "alice"
      { pw_name := "alice", pw_uid := 502 } rfl rfl rfl,
   (default_socket_path_by_real_uid root_process).2.2.2
      { pw_name := "root", pw_uid := 0 } rfl rfl (Or.inr ⟨rfl, Or.inr (Or.inl rfl)⟩)⟩

end Aerospace
